import Mathlib

/-!
Verification of the rollouts-demo color service (src/main.go).

The development shallowly embeds the request handler `getColor`, the helpers
`printColor`, `randomColor` and the per-color parameter selection loop, the
environment overrides (`COLOR`, `LATENCY`, `ERROR_RATE` read through
`strconv.Atoi`), and the shutdown goroutine of `main`.  Randomness
(`rand.Int()`, `rand.Intn(100)`) is passed in as explicit draw arguments;
blocking (`time.Sleep`) is recorded as the requested number of seconds in the
response value.  The Go standard library pieces that the handler calls but
that are not part of the repository (`fmt.Fprintf` format processing and
`encoding/json` unmarshalling) are modelled from their documented behaviour,
as noted on the corresponding definitions.
-/

/-- Go struct `colorParameters` (src/main.go lines 147-153).  The pointer
fields `*int` become `Option Int`; `nil` is `none`. -/
structure ColorParameters where
  color : String
  delayProbability : Option Int
  delayLength : Int
  return500Probability : Option Int
deriving Repr, DecidableEq

/-- The zero value of the Go struct `colorParameters`: the initial value of
the local variable `colorParams` in `getColor` (line 212). -/
def defaultColorParameters : ColorParameters :=
  { color := "", delayProbability := none, delayLength := 0,
    return500Probability := none }

/-- The process-wide environment snapshot (src/main.go lines 34-46):
`COLOR`, `ERROR_RATE` and `LATENCY` as read by `os.Getenv` (empty string
means unset). -/
structure Env where
  color : String
  envErrorRate : String
  envLatency : String
deriving Repr, DecidableEq

/-- Observable outcome of one request: HTTP status code, response body text,
and the number of seconds passed to `time.Sleep` (0 when no sleep happens). -/
structure Response where
  status : Nat
  body : String
  sleep : Int
deriving Repr, DecidableEq

/-- The fixed palette `colors` (src/main.go lines 36-43). -/
def colors : List String :=
  ["red", "orange", "yellow", "green", "blue", "purple"]

/-- `randomColor` (src/main.go lines 279-281): `colors[rand.Int()%len(colors)]`.
`rand.Int()` is a non-negative pseudo-random integer, passed in here as the
`n : Nat` argument. -/
def randomColor (n : Nat) : String :=
  (colors.getD (n % colors.length) "")

/-- Digit run accumulator used by the `strconv.Atoi` model. -/
def digitsToNatAcc : List Char → Nat → Nat
  | [], acc => acc
  | c :: rest, acc => digitsToNatAcc rest (acc * 10 + (c.toNat - 48))

/-- All-digit, non-empty digit string to `Nat`; `none` otherwise. -/
def atoiDigits (l : List Char) : Option Nat :=
  match l with
  | [] => none
  | _ => if l.all (fun c => c.isDigit) then some (digitsToNatAcc l 0) else none

/-- Modelled from the Go standard library: `strconv.Atoi` (called at
src/main.go lines 221 and 237).  An optional sign followed by a non-empty
run of digits parses; anything else is an error.  (64-bit overflow, which
Go also rejects, is not modelled; the claims only concern small values.) -/
def atoi (s : String) : Option Int :=
  match s.data with
  | '+' :: rest => (atoiDigits rest).map (fun n => (n : Int))
  | '-' :: rest => (atoiDigits rest).map (fun n => -(n : Int))
  | l => (atoiDigits l).map (fun n => (n : Int))

/-- The error text produced by `strconv.Atoi` on invalid input `s`. -/
def atoiErrMsg (s : String) : String :=
  "strconv.Atoi: parsing \"" ++ s ++ "\": invalid syntax"

/-- Modelled from the Go standard library: the text `fmt.Fprintf` writes when
given `s` as the FORMAT string and no further arguments (the situation at
src/main.go lines 192, 202, 226 and 242, where `err.Error()` is passed in
format-string position).  Characters other than `%` are copied; `%%` emits a
single `%`; `%` followed by any other character `c` emits the missing-operand
diagnostic `%!c(MISSING)`; a trailing lone `%` emits `%!(NOVERB)`. -/
def fmtNoArgs : List Char → List Char
  | [] => []
  | c :: rest =>
    if c = '%' then
      match rest with
      | [] => "%!(NOVERB)".data
      | c2 :: rest2 =>
        if c2 = '%' then '%' :: fmtNoArgs rest2
        else '%' :: '!' :: c2 :: ("(MISSING)".data ++ fmtNoArgs rest2)
    else c :: fmtNoArgs rest

/-- String-level wrapper of `fmtNoArgs`. -/
def fmtNoArgsStr (s : String) : String :=
  String.mk (fmtNoArgs s.data)

/-- JSON whitespace. -/
def isJsonWs (c : Char) : Bool :=
  c = ' ' || c = '\t' || c = '\n' || c = '\r'

/-- Drop leading JSON whitespace. -/
def skipWs : List Char → List Char
  | [] => []
  | c :: rest => if isJsonWs c then skipWs rest else c :: rest

/-- Build the `invalid character 'c' ...` error text used by `encoding/json`. -/
def jsonInvalidChar (c : Char) (ctx : String) : String :=
  "invalid character '" ++ String.mk [c] ++ "' " ++ ctx

/-- Body of a JSON string literal after the opening quote: plain characters up
to the closing quote.  Escape sequences are outside the modelled fragment. -/
def parseJsonStringBody : List Char → List Char → Except String (String × List Char)
  | [], _ => .error "unexpected end of JSON input"
  | c :: rest, acc =>
    if c = '"' then .ok (String.mk acc.reverse, rest)
    else if c = '\\' then .error "string escape sequences are not modelled"
    else parseJsonStringBody rest (c :: acc)

/-- A JSON string literal, opening quote included. -/
def parseJsonString : List Char → Except String (String × List Char)
  | '"' :: rest => parseJsonStringBody rest []
  | [] => .error "unexpected end of JSON input"
  | c :: _ => .error (jsonInvalidChar c "looking for beginning of string")

/-- A JSON integer literal (optional minus sign, digit run). -/
def parseJsonInt : List Char → Except String (Int × List Char)
  | '-' :: rest =>
    let p := rest.span (fun c => c.isDigit)
    if p.1 = [] then .error "invalid number syntax"
    else .ok (-(digitsToNatAcc p.1 0 : Int), p.2)
  | l =>
    let p := l.span (fun c => c.isDigit)
    if p.1 = [] then
      match l with
      | [] => .error "unexpected end of JSON input"
      | c :: _ => .error (jsonInvalidChar c "looking for beginning of value")
    else .ok ((digitsToNatAcc p.1 0 : Int), p.2)

/-- The literal `null`, if present. -/
def parseNullOr (l : List Char) : Option (List Char) :=
  match l with
  | 'n' :: 'u' :: 'l' :: 'l' :: rest => some rest
  | _ => none

/-- A string, integer or null value whose content is discarded (unknown
object keys, which `encoding/json` skips). -/
def parseSimpleValue (l : List Char) : Except String (List Char) :=
  match parseNullOr l with
  | some rest => .ok rest
  | none =>
    match l with
    | '"' :: _ => (parseJsonString l).map (fun p => p.2)
    | _ => (parseJsonInt l).map (fun p => p.2)

/-- Decode one `key : value` member into the `colorParameters` fields, as
`encoding/json` does for the tags at src/main.go lines 147-153: `color` takes
a string; `delayPercent` and `return500` take an integer (into the pointer
field) or `null` (leaving the pointer nil); `delayLength` takes an integer,
with `null` a no-op; unknown keys are skipped. -/
def setField (cp : ColorParameters) (key : String) (l : List Char) :
    Except String (ColorParameters × List Char) :=
  if key = "color" then
    (parseJsonString l).map (fun p => ({ cp with color := p.1 }, p.2))
  else if key = "delayPercent" then
    match parseNullOr l with
    | some rest => .ok ({ cp with delayProbability := none }, rest)
    | none =>
      (parseJsonInt l).map (fun p => ({ cp with delayProbability := some p.1 }, p.2))
  else if key = "delayLength" then
    match parseNullOr l with
    | some rest => .ok (cp, rest)
    | none =>
      (parseJsonInt l).map (fun p => ({ cp with delayLength := p.1 }, p.2))
  else if key = "return500" then
    match parseNullOr l with
    | some rest => .ok ({ cp with return500Probability := none }, rest)
    | none =>
      (parseJsonInt l).map
        (fun p => ({ cp with return500Probability := some p.1 }, p.2))
  else
    (parseSimpleValue l).map (fun rest => (cp, rest))

/-- Members of an object, after the opening brace (fuelled recursion). -/
def parseObjectMembers (fuel : Nat) (l : List Char) (cp : ColorParameters) :
    Except String (ColorParameters × List Char) :=
  match fuel with
  | 0 => .error "fuel exhausted"
  | fuel + 1 =>
    match parseJsonString (skipWs l) with
    | .error e => .error e
    | .ok (key, rest) =>
      match skipWs rest with
      | ':' :: rest2 =>
        match setField cp key (skipWs rest2) with
        | .error e => .error e
        | .ok (cp2, rest3) =>
          match skipWs rest3 with
          | '\x7d' :: rest4 => .ok (cp2, rest4)
          | ',' :: rest4 => parseObjectMembers fuel rest4 cp2
          | [] => .error "unexpected end of JSON input"
          | c :: _ => .error (jsonInvalidChar c "after object key:value pair")
      | [] => .error "unexpected end of JSON input"
      | c :: _ => .error (jsonInvalidChar c "after object key")

/-- One JSON object decoded into a `ColorParameters` record, starting from
the Go zero value. -/
def parseObject (fuel : Nat) (l : List Char) :
    Except String (ColorParameters × List Char) :=
  match skipWs l with
  | '\x7b' :: rest =>
    match skipWs rest with
    | '\x7d' :: rest2 => .ok (defaultColorParameters, rest2)
    | _ => parseObjectMembers fuel rest defaultColorParameters
  | [] => .error "unexpected end of JSON input"
  | c :: _ => .error (jsonInvalidChar c "looking for beginning of object")

/-- Comma-separated objects of a non-empty array, after the opening bracket. -/
def parseArrayElems (fuel : Nat) (l : List Char) (acc : List ColorParameters) :
    Except String (List ColorParameters × List Char) :=
  match fuel with
  | 0 => .error "fuel exhausted"
  | fuel + 1 =>
    match parseObject fuel l with
    | .error e => .error e
    | .ok (cp, rest) =>
      match skipWs rest with
      | ',' :: rest2 => parseArrayElems fuel rest2 (cp :: acc)
      | ']' :: rest2 => .ok ((cp :: acc).reverse, rest2)
      | [] => .error "unexpected end of JSON input"
      | c :: _ => .error (jsonInvalidChar c "after array element")

/-- Modelled from the Go standard library: `json.Unmarshal(requestBody,
&request)` with `request` of type `[]colorParameters` (src/main.go line 198,
an external collaborator of the repository).  The modelled fragment is a JSON
array of flat objects with string, integer and null values — the body grammar
of the spec — and the `invalid character ... looking for beginning of value`
and `unexpected end of JSON input` diagnostics `encoding/json` produces on
malformed input. -/
def jsonUnmarshalColorParams (s : String) : Except String (List ColorParameters) :=
  match skipWs s.data with
  | [] => .error "unexpected end of JSON input"
  | '[' :: rest =>
    match skipWs rest with
    | ']' :: rest2 =>
      match skipWs rest2 with
      | [] => .ok []
      | c :: _ => .error (jsonInvalidChar c "after top-level value")
    | _ =>
      match parseArrayElems (s.length + 1) rest [] with
      | .error e => .error e
      | .ok (ps, rest2) =>
        match skipWs rest2 with
        | [] => .ok ps
        | c :: _ => .error (jsonInvalidChar c "after top-level value")
  | c :: _ => .error (jsonInvalidChar c "looking for beginning of value")

/-- The loop at src/main.go lines 212-218: starting from the zero value,
every record whose `Color` equals the resolved color overwrites
`colorParams`, so the last match wins. -/
def selectColorParams (request : List ColorParameters) (c : String) :
    ColorParameters :=
  request.foldl (fun acc cp => if cp.color = c then cp else acc)
    defaultColorParameters

/-- `colorToReturn` (src/main.go lines 207-210): a random palette pick,
overridden by the `COLOR` environment value when that is non-empty. -/
def resolvedColor (env : Env) (randInt : Nat) : String :=
  if env.color ≠ "" then env.color else randomColor randInt

/-- The delay decision (src/main.go lines 220-233).  Returns the number of
seconds slept, or the `strconv.Atoi` error text when `LATENCY` is set but not
an integer.  `delayDraw` is the value of `rand.Intn(100)` drawn in the
per-request branch. -/
def delayStage (env : Env) (cp : ColorParameters) (delayDraw : Nat) :
    Except String Int :=
  if env.envLatency ≠ "" then
    match atoi env.envLatency with
    | none => .error (atoiErrMsg env.envLatency)
    | some latency => .ok latency
  else
    match cp.delayProbability with
    | some p => if p > 0 ∧ p ≥ (delayDraw : Int) then .ok cp.delayLength else .ok 0
    | none => .ok 0

/-- The failure decision (src/main.go lines 235-247).  Returns
`returnSuccess`, or the `strconv.Atoi` error text when `ERROR_RATE` is set
but not an integer.  `errorDraw` is the value of `rand.Intn(100)` drawn in
whichever branch runs. -/
def failureStage (env : Env) (cp : ColorParameters) (errorDraw : Nat) :
    Except String Bool :=
  if env.envErrorRate ≠ "" then
    match atoi env.envErrorRate with
    | none => .error (atoiErrMsg env.envErrorRate)
    | some rate => .ok (decide ((errorDraw : Int) ≥ rate))
  else
    match cp.return500Probability with
    | some p => if p > 0 ∧ p ≥ (errorDraw : Int) then .ok false else .ok true
    | none => .ok true

/-- `printColor` (src/main.go lines 251-277): status 200 when healthy, 500
otherwise; the body is the color wrapped in literal double quotes (written by
`Fprintf(w, "\"%s\"", c)`, a proper format whose argument is substituted
verbatim).  An empty color falls back to a fresh random pick, whose
`rand.Int()` value is the `fallback` argument. -/
def printColor (colorToPrint : String) (healthy : Bool) (fallback : Nat) :
    Nat × String :=
  ((if healthy then 200 else 500),
    "\"" ++ (if colorToPrint = "" then randomColor fallback else colorToPrint)
      ++ "\"")

/-- The handler from line 207 on, once the request body has been parsed into
`request` (src/main.go lines 207-248). -/
def getColorWithRequest (env : Env) (request : List ColorParameters)
    (randInt delayDraw errorDraw fallback : Nat) : Response :=
  let colorToReturn := resolvedColor env randInt
  let colorParams := selectColorParams request colorToReturn
  match delayStage env colorParams delayDraw with
  | .error e => { status := 500, body := fmtNoArgsStr e, sleep := 0 }
  | .ok slp =>
    match failureStage env colorParams errorDraw with
    | .error e => { status := 500, body := fmtNoArgsStr e, sleep := slp }
    | .ok healthy =>
      let pc := printColor colorToReturn healthy fallback
      { status := pc.1, body := pc.2, sleep := slp }

/-- The four-byte raw-string literal the handler compares the body against
(src/main.go line 197): a quoted empty array. -/
def sentinel : String := "\"[]\""

/-- src/main.go lines 196-205: the body is unmarshalled only when it is
non-empty and differs from the sentinel; otherwise `request` stays nil. -/
def parseRequestBody (unmarshal : String → Except String (List ColorParameters))
    (body : String) : Except String (List ColorParameters) :=
  if body.length > 0 ∧ body ≠ sentinel then unmarshal body else .ok []

/-- The whole of `getColor` (src/main.go lines 187-249).  `bodyResult` is the
outcome of `ioutil.ReadAll(r.Body)`; `unmarshal` is the JSON decoder.  Every
error path writes status 500 and passes the error text to `Fprintf` in
format-string position, modelled by `fmtNoArgsStr`. -/
def getColor (env : Env)
    (unmarshal : String → Except String (List ColorParameters))
    (bodyResult : Except String String)
    (randInt delayDraw errorDraw fallback : Nat) : Response :=
  match bodyResult with
  | .error e => { status := 500, body := fmtNoArgsStr e, sleep := 0 }
  | .ok body =>
    match parseRequestBody unmarshal body with
    | .error e => { status := 500, body := fmtNoArgsStr e, sleep := 0 }
    | .ok request => getColorWithRequest env request randInt delayDraw errorDraw fallback

/-- Events of the shutdown goroutine (src/main.go lines 117-135). -/
inductive ShutdownEvent where
  | disableKeepAlives
  | waitGrace
  | waitEscalated
  | serverShutdownCall
  | fatalExit
  | closeDone
deriving Repr, DecidableEq

/-- The shutdown goroutine of `main` (src/main.go lines 117-135) as the
sequential trace of its events: disable keep-alives, wait for the grace
ticker or a second signal (whichever is ready first — `secondSignal` says
which won), call `server.Shutdown` under its 30-second context, and then
either `log.Fatalf` (when `Shutdown` returned an error, `shutdownFails`) or
`close(done)`.  This goroutine is the only writer of the `done` channel. -/
def shutdownCoordinator (secondSignal shutdownFails : Bool) : List ShutdownEvent :=
  [ShutdownEvent.disableKeepAlives,
   (if secondSignal then ShutdownEvent.waitEscalated else ShutdownEvent.waitGrace),
   ShutdownEvent.serverShutdownCall]
    ++ (if shutdownFails then [ShutdownEvent.fatalExit] else [ShutdownEvent.closeDone])

theorem fmtNoArgs_cons_ne (c : Char) (l : List Char) (h : c ≠ '%') :
    fmtNoArgs (c :: l) = c :: fmtNoArgs l := by
  rw [fmtNoArgs.eq_def]
  simp [h]

theorem fmtNoArgs_pct_pct (l : List Char) :
    fmtNoArgs ('%' :: '%' :: l) = '%' :: fmtNoArgs l := by
  rw [fmtNoArgs.eq_def]
  simp

theorem fmtNoArgs_pct_cons (c : Char) (l : List Char) (h : c ≠ '%') :
    fmtNoArgs ('%' :: c :: l) = '%' :: '!' :: c :: ("(MISSING)".data ++ fmtNoArgs l) := by
  rw [fmtNoArgs.eq_def]
  simp [h]

theorem fmtNoArgs_pct_nil : fmtNoArgs ['%'] = "%!(NOVERB)".data := by
  rw [fmtNoArgs.eq_def]
  simp

theorem fmtNoArgs_append_of_not_mem :
    ∀ (d x : List Char), '%' ∉ d → fmtNoArgs (d ++ x) = d ++ fmtNoArgs x := by
  intro d
  induction d with
  | nil => intro x _; rfl
  | cons c t ih =>
    intro x hd
    have hc : c ≠ '%' := by
      intro hh
      exact hd (hh ▸ List.mem_cons_self c t)
    have ht : '%' ∉ t := fun hh => hd (List.mem_cons_of_mem _ hh)
    rw [List.cons_append, fmtNoArgs_cons_ne c _ hc, ih x ht, List.cons_append]

theorem replicate_append_cons (a : Nat) (x : Char) (l : List Char) :
    List.replicate a x ++ x :: l = List.replicate (a + 1) x ++ l := by
  rw [List.replicate_succ', List.append_assoc, List.singleton_append]

theorem fmtNoArgs_ne_replicate_append :
    ∀ (n : Nat) (s : List Char), s.length ≤ n → ∀ k : Nat, 1 ≤ k →
      fmtNoArgs s ≠ List.replicate k '%' ++ s := by
  intro n
  induction n with
  | zero =>
    intro s hs k hk h
    have hnil : s = [] := List.length_eq_zero.mp (Nat.le_zero.mp hs)
    subst hnil
    rw [show fmtNoArgs ([] : List Char) = [] from rfl, List.append_nil] at h
    have := congrArg List.length h
    rw [List.length_replicate] at this
    simp at this
    omega
  | succ n ih =>
    intro s hs k hk h
    cases s with
    | nil =>
      rw [show fmtNoArgs ([] : List Char) = [] from rfl, List.append_nil] at h
      have := congrArg List.length h
      rw [List.length_replicate] at this
      simp at this
      omega
    | cons c t =>
      obtain ⟨k0, rfl⟩ : ∃ k0, k = k0 + 1 := ⟨k - 1, by omega⟩
      by_cases hc : c = '%'
      · subst hc
        cases t with
        | nil =>
          rw [fmtNoArgs_pct_nil] at h
          have hmem : '!' ∈ "%!(NOVERB)".data := by decide
          rw [h] at hmem
          rcases List.mem_append.mp hmem with h1 | h1
          · exact absurd (List.eq_of_mem_replicate h1) (by decide)
          · simp at h1
          -- fallthrough?
        | cons c2 u =>
          by_cases hc2 : c2 = '%'
          · subst hc2
            rw [fmtNoArgs_pct_pct, List.replicate_succ, List.cons_append] at h
            injection h with _ h2
            rw [replicate_append_cons, replicate_append_cons] at h2
            have hu : u.length ≤ n := by
              simp at hs
              omega
            exact ih u hu (k0 + 1 + 1) (by omega) h2
          · rw [fmtNoArgs_pct_cons c2 u hc2, List.replicate_succ, List.cons_append] at h
            injection h with _ h2
            cases k0 with
            | zero =>
              simp only [List.replicate_zero, List.append_eq, List.nil_append] at h2
              injection h2 with h3 _
              exact absurd h3 (by decide)
            | succ j =>
              rw [List.replicate_succ] at h2
              simp only [List.append_eq, List.cons_append] at h2
              injection h2 with h3 _
              exact absurd h3 (by decide)
      · rw [fmtNoArgs_cons_ne c t hc, List.replicate_succ, List.cons_append] at h
        injection h with h1 _
        exact hc h1

theorem fmtNoArgs_no_fixpoint_missing :
    ∀ (n : Nat) (u : List Char), u.length ≤ n →
      u ≠ "!(MISSING)".data ++ fmtNoArgs u := by
  intro n
  induction n with
  | zero =>
    intro u hu h
    have hnil : u = [] := List.length_eq_zero.mp (Nat.le_zero.mp hu)
    subst hnil
    have := congrArg List.length h
    simp at this
  | succ n ih =>
    intro u hu h
    have hd : '%' ∉ "!(MISSING)".data := by decide
    have h2 : fmtNoArgs u = "!(MISSING)".data ++ fmtNoArgs (fmtNoArgs u) := by
      conv_lhs => rw [h]
      rw [fmtNoArgs_append_of_not_mem _ _ hd]
    have hlen : (fmtNoArgs u).length ≤ n := by
      have hlu := congrArg List.length h
      simp at hlu
      omega
    exact ih (fmtNoArgs u) hlen h2

theorem fmtNoArgs_eq_self_of_not_mem :
    ∀ s : List Char, '%' ∉ s → fmtNoArgs s = s := by
  intro s
  induction s with
  | nil => intro _; rfl
  | cons c t ih =>
    intro hs
    have hc : c ≠ '%' := by
      intro hh
      exact hs (hh ▸ List.mem_cons_self c t)
    have ht : '%' ∉ t := fun hh => hs (List.mem_cons_of_mem _ hh)
    rw [fmtNoArgs_cons_ne c t hc, ih ht]

theorem fmtNoArgs_fix_aux :
    ∀ (n : Nat) (s : List Char), s.length ≤ n → fmtNoArgs s = s → '%' ∉ s := by
  intro n
  induction n with
  | zero =>
    intro s hs _
    have hnil : s = [] := List.length_eq_zero.mp (Nat.le_zero.mp hs)
    subst hnil
    simp
  | succ n ih =>
    intro s hs h
    cases s with
    | nil => simp
    | cons c t =>
      by_cases hc : c = '%'
      · subst hc
        exfalso
        cases t with
        | nil =>
          rw [fmtNoArgs_pct_nil] at h
          have := congrArg List.length h
          simp at this
        | cons c2 u =>
          by_cases hc2 : c2 = '%'
          · subst hc2
            rw [fmtNoArgs_pct_pct] at h
            injection h with _ h2
            have : fmtNoArgs u = List.replicate 1 '%' ++ u := by
              simpa using h2
            exact fmtNoArgs_ne_replicate_append u.length u le_rfl 1 le_rfl this
          · rw [fmtNoArgs_pct_cons c2 u hc2] at h
            injection h with _ h2
            injection h2 with h3 h4
            subst h3
            have hM : "!(MISSING)".data = ('!' : Char) :: "(MISSING)".data := by decide
            have h5 : u = "!(MISSING)".data ++ fmtNoArgs u := by
              conv_lhs => rw [← h4]
              rw [hM]
              simp
            exact fmtNoArgs_no_fixpoint_missing u.length u le_rfl h5
      · rw [fmtNoArgs_cons_ne c t hc] at h
        injection h with _ h2
        have ht : '%' ∉ t := ih t (by simp at hs; omega) h2
        simp [List.mem_cons, ht]
        intro hh
        exact hc hh.symm

theorem fmtNoArgs_eq_self_iff (s : List Char) : fmtNoArgs s = s ↔ '%' ∉ s :=
  ⟨fmtNoArgs_fix_aux s.length s le_rfl, fmtNoArgs_eq_self_of_not_mem s⟩

theorem getLast?_getD_cons {α : Type} (l : List α) :
    ∀ (x d : α), ((x :: l).getLast?).getD d = (l.getLast?).getD x := by
  induction l with
  | nil => intro x d; rfl
  | cons y t ih =>
    intro x d
    rw [List.getLast?_cons_cons, ih y d, ih y x]

theorem selectColorParams_eq_last_filter (request : List ColorParameters) (c : String) :
    selectColorParams request c =
      ((request.filter (fun cp => cp.color = c)).getLast?).getD
        defaultColorParameters := by
  unfold selectColorParams
  generalize defaultColorParameters = init
  induction request generalizing init with
  | nil => rfl
  | cons x t ih =>
    by_cases hx : x.color = c
    · rw [List.foldl_cons, if_pos hx, List.filter_cons_of_pos (by simpa using hx),
        getLast?_getD_cons, ih x]
    · rw [List.foldl_cons, if_neg hx, List.filter_cons_of_neg (by simpa using hx),
        ih init]

theorem selectColorParams_no_match (request : List ColorParameters) (c : String)
    (h : ∀ cp ∈ request, cp.color ≠ c) :
    selectColorParams request c = defaultColorParameters := by
  rw [selectColorParams_eq_last_filter]
  have : request.filter (fun cp => cp.color = c) = [] := by
    rw [List.filter_eq_nil_iff]
    intro cp hcp
    simpa using h cp hcp
  rw [this]
  rfl

theorem delayStage_ok (env : Env) (cp : ColorParameters) (d : Nat)
    (hL : env.envLatency = "" ∨ (atoi env.envLatency).isSome) :
    ∃ slp, delayStage env cp d = .ok slp := by
  unfold delayStage
  rcases hL with hL | hL
  · rw [if_neg (by simp [hL])]
    match cp.delayProbability with
    | some p =>
      by_cases hp : p > 0 ∧ p ≥ (d : Int)
      · exact ⟨cp.delayLength, by simp [hp]⟩
      · exact ⟨0, by simp [hp]⟩
    | none => exact ⟨0, rfl⟩
  · match hA : atoi env.envLatency with
    | some n =>
      by_cases hne : env.envLatency ≠ ""
      · exact ⟨n, by rw [if_pos hne]⟩
      · push_neg at hne
        rw [if_neg (by simp [hne])]
        match cp.delayProbability with
        | some p =>
          by_cases hp : p > 0 ∧ p ≥ (d : Int)
          · exact ⟨cp.delayLength, by simp [hp]⟩
          · exact ⟨0, by simp [hp]⟩
        | none => exact ⟨0, rfl⟩
    | none => rw [hA] at hL; simp at hL

theorem failureStage_ok (env : Env) (cp : ColorParameters) (d : Nat)
    (hR : env.envErrorRate = "" ∨ (atoi env.envErrorRate).isSome) :
    ∃ b, failureStage env cp d = .ok b := by
  unfold failureStage
  rcases hR with hR | hR
  · rw [if_neg (by simp [hR])]
    match cp.return500Probability with
    | some p =>
      by_cases hp : p > 0 ∧ p ≥ (d : Int)
      · exact ⟨false, by simp [hp]⟩
      · exact ⟨true, by simp [hp]⟩
    | none => exact ⟨true, rfl⟩
  · match hA : atoi env.envErrorRate with
    | some n =>
      by_cases hne : env.envErrorRate ≠ ""
      · exact ⟨decide ((d : Int) ≥ n), by rw [if_pos hne]⟩
      · push_neg at hne
        rw [if_neg (by simp [hne])]
        match cp.return500Probability with
        | some p =>
          by_cases hp : p > 0 ∧ p ≥ (d : Int)
          · exact ⟨false, by simp [hp]⟩
          · exact ⟨true, by simp [hp]⟩
        | none => exact ⟨true, rfl⟩
    | none => rw [hA] at hR; simp at hR

theorem getColorWithRequest_eq (env : Env) (request : List ColorParameters)
    (randInt delayDraw errorDraw fallback : Nat) (slp : Int) (healthy : Bool)
    (hd : delayStage env (selectColorParams request (resolvedColor env randInt))
      delayDraw = .ok slp)
    (hf : failureStage env (selectColorParams request (resolvedColor env randInt))
      errorDraw = .ok healthy) :
    getColorWithRequest env request randInt delayDraw errorDraw fallback =
      { status := if healthy then 200 else 500,
        body := "\"" ++ (if resolvedColor env randInt = "" then randomColor fallback
          else resolvedColor env randInt) ++ "\"",
        sleep := slp } := by
  simp only [getColorWithRequest, printColor]
  rw [hd, hf]

/-- Claim C8: the random color selector always returns an element of the
fixed six-entry palette — the computed index is within bounds of the
non-empty palette — so an unconfigured request never produces a non-member
value. -/
theorem randomColor_mem_colors (n : Nat) :
    randomColor n ∈ colors ∧ n % colors.length < colors.length := by
  have h6 : colors.length = 6 := rfl
  refine ⟨?_, by rw [h6]; exact Nat.mod_lt _ (by omega)⟩
  unfold randomColor
  rw [h6]
  rcases show n % 6 = 0 ∨ n % 6 = 1 ∨ n % 6 = 2 ∨ n % 6 = 3 ∨ n % 6 = 4 ∨
      n % 6 = 5 by omega with h | h | h | h | h | h <;> rw [h] <;> decide

/-- Claim C5: an empty request body and the quoted-empty-array sentinel body
are both accepted without error and behave exactly like an empty parameter
sequence, for every decoder, environment and draw. -/
theorem empty_and_sentinel_no_overrides (env : Env)
    (unmarshal : String → Except String (List ColorParameters))
    (randInt delayDraw errorDraw fallback : Nat) :
    getColor env unmarshal (.ok "") randInt delayDraw errorDraw fallback =
      getColorWithRequest env [] randInt delayDraw errorDraw fallback ∧
    getColor env unmarshal (.ok sentinel) randInt delayDraw errorDraw fallback =
      getColorWithRequest env [] randInt delayDraw errorDraw fallback := by
  have h1 : parseRequestBody unmarshal "" = .ok [] := by
    unfold parseRequestBody
    rw [if_neg (by decide)]
  have h2 : parseRequestBody unmarshal sentinel = .ok [] := by
    unfold parseRequestBody
    rw [if_neg (by decide)]
  constructor
  · simp only [getColor, h1]
  · simp only [getColor, h2]

/-- Claim C3: when LATENCY parses as the integer N, every request that
reaches the policy stage records a sleep of N seconds, whatever the
per-request delay parameters and the delay draw are — the per-request delay
branch is reached only when LATENCY is unset. -/
theorem latency_override_sleep (env : Env) (request : List ColorParameters)
    (randInt delayDraw errorDraw fallback : Nat) (n : Int)
    (hne : env.envLatency ≠ "") (hA : atoi env.envLatency = some n) :
    (getColorWithRequest env request randInt delayDraw errorDraw fallback).sleep
      = n := by
  have hd : delayStage env (selectColorParams request (resolvedColor env randInt))
      delayDraw = .ok n := by
    unfold delayStage
    rw [if_pos hne, hA]
  simp only [getColorWithRequest, printColor]
  rw [hd]
  cases hf : failureStage env (selectColorParams request (resolvedColor env randInt))
      errorDraw with
  | error e => simp [hf]
  | ok b => simp [hf]

theorem latency_override_sleep_witness :
    atoi "7" = some 7 ∧
    (getColorWithRequest { color := "", envErrorRate := "", envLatency := "7" }
      [] 0 0 0 0).sleep = 7 :=
  ⟨by decide,
    latency_override_sleep { color := "", envErrorRate := "", envLatency := "7" }
      [] 0 0 0 0 7 (by decide) (by decide)⟩

/-- Claim C2: when ERROR_RATE parses as the integer rate, a request that
reaches the failure decision succeeds exactly when the fresh uniform draw is
at least the rate, whatever the per-request return500 parameters are; with
rate 100 every draw yields 500 and with rate 0 every draw yields 200. -/
theorem error_rate_override (env : Env) (request : List ColorParameters)
    (randInt delayDraw errorDraw fallback : Nat) (rate : Int)
    (hL : env.envLatency = "" ∨ (atoi env.envLatency).isSome)
    (hne : env.envErrorRate ≠ "") (hA : atoi env.envErrorRate = some rate)
    (hdraw : errorDraw < 100) :
    ((getColorWithRequest env request randInt delayDraw errorDraw fallback).status
        = 200 ↔ rate ≤ (errorDraw : Int)) ∧
    (rate = 100 →
      (getColorWithRequest env request randInt delayDraw errorDraw fallback).status
        = 500) ∧
    (rate = 0 →
      (getColorWithRequest env request randInt delayDraw errorDraw fallback).status
        = 200) := by
  obtain ⟨slp, hslp⟩ :=
    delayStage_ok env (selectColorParams request (resolvedColor env randInt))
      delayDraw hL
  have hf : failureStage env (selectColorParams request (resolvedColor env randInt))
      errorDraw = .ok (decide ((errorDraw : Int) ≥ rate)) := by
    unfold failureStage
    rw [if_pos hne, hA]
  rw [getColorWithRequest_eq env request randInt delayDraw errorDraw fallback slp _
    hslp hf]
  refine ⟨?_, ?_, ?_⟩
  · by_cases hc : rate ≤ (errorDraw : Int)
    · simp [hc, ge_iff_le]
    · simp [hc, ge_iff_le]
  · intro h100
    subst h100
    have hlt : ¬((100 : Int) ≤ (errorDraw : Int)) := by omega
    simp [hlt, ge_iff_le]
  · intro h0
    subst h0
    have hge : ((0 : Int) ≤ (errorDraw : Int)) := by omega
    simp [hge, ge_iff_le]

theorem error_rate_override_witness :
    atoi "100" = some 100 ∧ atoi "0" = some 0 ∧
    (getColorWithRequest { color := "", envErrorRate := "100", envLatency := "" }
      [] 0 0 50 0).status = 500 ∧
    (getColorWithRequest { color := "", envErrorRate := "0", envLatency := "" }
      [] 0 0 50 0).status = 200 :=
  ⟨by decide, by decide,
    (error_rate_override { color := "", envErrorRate := "100", envLatency := "" }
      [] 0 0 50 0 100 (Or.inl rfl) (by decide) (by decide) (by decide)).2.1 rfl,
    (error_rate_override { color := "", envErrorRate := "0", envLatency := "" }
      [] 0 0 50 0 0 (Or.inl rfl) (by decide) (by decide) (by decide)).2.2 rfl⟩

/-- Claim C4: the active parameter set is the last record in order whose
color label equals the resolved color; when no record matches, the request
behaves exactly as if the parameter list were empty, so the records have no
effect on the outcome. -/
theorem active_params_last_match (request : List ColorParameters) (c : String)
    (env : Env) (randInt delayDraw errorDraw fallback : Nat) :
    selectColorParams request c =
      ((request.filter (fun cp => cp.color = c)).getLast?).getD
        defaultColorParameters ∧
    ((∀ cp ∈ request, cp.color ≠ resolvedColor env randInt) →
      getColorWithRequest env request randInt delayDraw errorDraw fallback =
        getColorWithRequest env [] randInt delayDraw errorDraw fallback) := by
  refine ⟨selectColorParams_eq_last_filter request c, ?_⟩
  intro h
  have hsel : selectColorParams request (resolvedColor env randInt) =
      defaultColorParameters :=
    selectColorParams_no_match request _ h
  simp only [getColorWithRequest]
  rw [hsel]
  rfl

theorem active_params_last_match_witness :
    getColorWithRequest { color := "blue", envErrorRate := "", envLatency := "" }
      [{ color := "red", delayProbability := some 100, delayLength := 2,
         return500Probability := some 100 }] 0 0 0 0 =
    getColorWithRequest { color := "blue", envErrorRate := "", envLatency := "" }
      [] 0 0 0 0 :=
  (active_params_last_match
    [{ color := "red", delayProbability := some 100, delayLength := 2,
       return500Probability := some 100 }] "red"
    { color := "blue", envErrorRate := "", envLatency := "" } 0 0 0 0).2
    (by decide)

/-- Claim C1 (amended): when COLOR is set non-empty, every request that
reaches the policy stage (body parsed into a record list; LATENCY and
ERROR_RATE unset or valid integers) resolves to the override color and
answers with that color wrapped in literal double quotes, whatever the
parsed records and the draws are. -/
theorem color_override (env : Env) (request : List ColorParameters)
    (randInt delayDraw errorDraw fallback : Nat)
    (hc : env.color ≠ "")
    (hL : env.envLatency = "" ∨ (atoi env.envLatency).isSome)
    (hR : env.envErrorRate = "" ∨ (atoi env.envErrorRate).isSome) :
    resolvedColor env randInt = env.color ∧
    (getColorWithRequest env request randInt delayDraw errorDraw fallback).body =
      "\"" ++ env.color ++ "\"" := by
  have hres : resolvedColor env randInt = env.color := by
    unfold resolvedColor
    rw [if_pos hc]
  refine ⟨hres, ?_⟩
  obtain ⟨slp, hslp⟩ :=
    delayStage_ok env (selectColorParams request (resolvedColor env randInt))
      delayDraw hL
  obtain ⟨b, hb⟩ :=
    failureStage_ok env (selectColorParams request (resolvedColor env randInt))
      errorDraw hR
  rw [getColorWithRequest_eq env request randInt delayDraw errorDraw fallback slp b
    hslp hb]
  simp [hres, hc]

theorem color_override_witness :
    ("blue" : String) ≠ "" ∧
    (getColorWithRequest { color := "blue", envErrorRate := "", envLatency := "" }
      [{ color := "blue", delayProbability := none, delayLength := 0,
         return500Probability := some 100 }] 1 2 3 4).body = "\"blue\"" :=
  ⟨by decide,
    (color_override { color := "blue", envErrorRate := "", envLatency := "" }
      [{ color := "blue", delayProbability := none, delayLength := 0,
         return500Probability := some 100 }] 1 2 3 4
      (by decide) (Or.inl rfl) (Or.inl rfl)).2⟩

/-- Claim C1 as stated is false on the code: with COLOR=blue, a request whose
body is the malformed JSON text consisting of one percent character is
answered with the (format-mangled) parse error text, not with the quoted
override color. -/
theorem color_override_counterexample :
    (getColor { color := "blue", envErrorRate := "", envLatency := "" }
      jsonUnmarshalColorParams (.ok "%") 0 0 0 0).body ≠ "\"blue\"" := by
  decide

/-- Claim C6: on a non-empty, non-sentinel body that fails to parse, the
handler answers 500 with no sleep; but the body is the parse error text
passed through printf format processing, which differs from the error text
itself whenever that text contains a percent character — here on the
malformed body consisting of one percent character. -/
theorem malformed_body_divergence :
    jsonUnmarshalColorParams "%" =
      .error "invalid character '%' looking for beginning of value" ∧
    getColor { color := "", envErrorRate := "", envLatency := "" }
      jsonUnmarshalColorParams (.ok "%") 0 0 0 0 =
      { status := 500,
        body := "invalid character '%!'(MISSING) looking for beginning of value",
        sleep := 0 } ∧
    (getColor { color := "", envErrorRate := "", envLatency := "" }
      jsonUnmarshalColorParams (.ok "%") 0 0 0 0).body ≠
      "invalid character '%' looking for beginning of value" :=
  ⟨rfl, rfl, by decide⟩

/-- Claim C7 as stated is false on the code: the decoder accepts a delay
probability of 200, outside [0,100], without any error. -/
theorem probability_range_counterexample :
    jsonUnmarshalColorParams "[\x7b\"color\":\"red\",\"delayPercent\":200\x7d]" =
      .ok [{ color := "red", delayProbability := some 200, delayLength := 0,
             return500Probability := none }] ∧
    ¬((0 : Int) ≤ 200 ∧ (200 : Int) ≤ 100) :=
  ⟨rfl, by decide⟩

/-- Claim C7 (amended): decoded probabilities are arbitrary integers — the
code performs no range validation, and an out-of-range value such as 200 is
accepted and then exceeds every possible draw — while a null probability
means the delay branch is not applied. -/
theorem probability_no_validation (env : Env) (cp : ColorParameters) (d : Nat)
    (hEnv : env.envLatency = "") (hNone : cp.delayProbability = none)
    (hd : d < 100) :
    delayStage env cp d = .ok 0 ∧
    jsonUnmarshalColorParams "[\x7b\"color\":\"red\",\"delayPercent\":200\x7d]" =
      .ok [{ color := "red", delayProbability := some 200, delayLength := 0,
             return500Probability := none }] ∧
    delayStage { color := "", envErrorRate := "", envLatency := "" }
      { color := "red", delayProbability := some 200, delayLength := 5,
        return500Probability := none } d = .ok 5 := by
  refine ⟨?_, rfl, ?_⟩
  · unfold delayStage
    rw [if_neg (by simp [hEnv]), hNone]
  · unfold delayStage
    rw [if_neg (by simp)]
    have hcond : (200 : Int) > 0 ∧ (200 : Int) ≥ (d : Int) := ⟨by omega, by omega⟩
    simp [hcond]

theorem probability_no_validation_witness :
    delayStage { color := "", envErrorRate := "", envLatency := "" }
      defaultColorParameters 99 = .ok 0 ∧
    delayStage { color := "", envErrorRate := "", envLatency := "" }
      { color := "red", delayProbability := some 200, delayLength := 5,
        return500Probability := none } 99 = .ok 5 :=
  ⟨(probability_no_validation { color := "", envErrorRate := "", envLatency := "" }
      defaultColorParameters 99 rfl rfl (by decide)).1,
   (probability_no_validation { color := "", envErrorRate := "", envLatency := "" }
      defaultColorParameters 99 rfl rfl (by decide)).2.2⟩

/-- Claim C9: in the shutdown goroutine the done channel is closed at most
once, it is closed exactly when the graceful server shutdown succeeds, the
close happens strictly after the shutdown call, and on shutdown failure the
goroutine exits fatally with the channel never closed. -/
theorem shutdown_close_once_after (secondSignal shutdownFails : Bool) :
    ((shutdownCoordinator secondSignal shutdownFails).count
      ShutdownEvent.closeDone ≤ 1) ∧
    (ShutdownEvent.closeDone ∈ shutdownCoordinator secondSignal shutdownFails ↔
      shutdownFails = false) ∧
    (shutdownFails = false →
      (shutdownCoordinator secondSignal shutdownFails).indexOf
          ShutdownEvent.serverShutdownCall <
        (shutdownCoordinator secondSignal shutdownFails).indexOf
          ShutdownEvent.closeDone) ∧
    (shutdownFails = true →
      ShutdownEvent.closeDone ∉ shutdownCoordinator secondSignal shutdownFails ∧
      ShutdownEvent.fatalExit ∈ shutdownCoordinator secondSignal shutdownFails) := by
  cases secondSignal <;> cases shutdownFails <;> decide

theorem shutdown_close_once_after_witness :
    (shutdownCoordinator false false).indexOf ShutdownEvent.serverShutdownCall <
      (shutdownCoordinator false false).indexOf ShutdownEvent.closeDone :=
  (shutdown_close_once_after false false).2.2.1 rfl

/-- Claim C10: on every error path of the handler — body read failure, JSON
parse failure, non-integer LATENCY, non-integer ERROR_RATE — the error text
reaches the response writer in printf format-string position, so the 500
response body is the format-processed text, which equals the original error
text exactly when that text contains no percent character. -/
theorem error_paths_format_string :
    (∀ s : String, fmtNoArgsStr s = s ↔ '%' ∉ s.data) ∧
    (∀ (env : Env) (um : String → Except String (List ColorParameters))
        (msg : String) (r d e f : Nat),
      getColor env um (.error msg) r d e f =
        { status := 500, body := fmtNoArgsStr msg, sleep := 0 }) ∧
    (∀ (env : Env) (um : String → Except String (List ColorParameters))
        (body msg : String) (r d e f : Nat),
      0 < body.length → body ≠ sentinel → um body = .error msg →
      getColor env um (.ok body) r d e f =
        { status := 500, body := fmtNoArgsStr msg, sleep := 0 }) ∧
    (∀ (env : Env) (request : List ColorParameters) (r d e f : Nat),
      env.envLatency ≠ "" → atoi env.envLatency = none →
      getColorWithRequest env request r d e f =
        { status := 500, body := fmtNoArgsStr (atoiErrMsg env.envLatency),
          sleep := 0 }) ∧
    (∀ (env : Env) (request : List ColorParameters) (r d e f : Nat) (slp : Int),
      delayStage env (selectColorParams request (resolvedColor env r)) d = .ok slp →
      env.envErrorRate ≠ "" → atoi env.envErrorRate = none →
      getColorWithRequest env request r d e f =
        { status := 500, body := fmtNoArgsStr (atoiErrMsg env.envErrorRate),
          sleep := slp }) := by
  refine ⟨?_, ?_, ?_, ?_, ?_⟩
  · intro s
    cases s with
    | mk data =>
      unfold fmtNoArgsStr
      constructor
      · intro h
        exact (fmtNoArgs_eq_self_iff data).mp (congrArg String.data h)
      · intro h
        have hfix : fmtNoArgs data = data := (fmtNoArgs_eq_self_iff data).mpr h
        show String.mk (fmtNoArgs data) = String.mk data
        rw [hfix]
  · intro env um msg r d e f
    rfl
  · intro env um body msg r d e f hlen hsent hum
    have hp : parseRequestBody um body = .error msg := by
      unfold parseRequestBody
      rw [if_pos ⟨hlen, hsent⟩, hum]
    simp only [getColor, hp]
  · intro env request r d e f hne hA
    have hd : delayStage env (selectColorParams request (resolvedColor env r)) d =
        .error (atoiErrMsg env.envLatency) := by
      unfold delayStage
      rw [if_pos hne, hA]
    simp only [getColorWithRequest]
    rw [hd]
  · intro env request r d e f slp hslp hne hA
    have hf : failureStage env (selectColorParams request (resolvedColor env r)) e =
        .error (atoiErrMsg env.envErrorRate) := by
      unfold failureStage
      rw [if_pos hne, hA]
    simp only [getColorWithRequest]
    rw [hslp, hf]

theorem error_paths_format_string_witness :
    (("zz" : String) ≠ "" ∧ atoi "zz" = none) ∧
    getColorWithRequest { color := "", envErrorRate := "", envLatency := "zz" }
      [] 0 0 0 0 =
      { status := 500, body := fmtNoArgsStr (atoiErrMsg "zz"), sleep := 0 } :=
  ⟨⟨by decide, by decide⟩,
    error_paths_format_string.2.2.2.1
      { color := "", envErrorRate := "", envLatency := "zz" } [] 0 0 0 0
      (by decide) (by decide)⟩
